import Mathlib

/-!
Verification of the `gmrepo-api` client library (`src/gmrepo_api/gmrepo.py`)
against its natural-language specification.

The embedding models Python strings as lists of characters, JSON-decoded
response documents as an inductive `Json` type, pandas data frames built from
array-of-records responses as lists of rows, and the HTTP layer as an abstract
service oracle mapping an endpoint and a payload to either a response document
or an error (`requests` raises on transport failure, `raise_for_status` on a
non-2xx status, and `.json()` on a malformed body; all three surface as the
`.error` case of the oracle).  Every definition follows the corresponding
Python function line by line.
-/

namespace GMRepo

/-- A Python string, modelled as its list of characters. -/
abbrev PyStr := List Char

/-- The ASCII whitespace characters removed by Python `str.strip()`
(space, tab, line feed, carriage return, vertical tab, form feed). -/
def pyIsSpace (c : Char) : Bool :=
  c = ' ' || c = '\t' || c = '\n' || c = '\r' || c = '\x0b' || c = '\x0c'

/-- Python `s.replace(old, "")` for a one-character pattern `old`: occurrences
are scanned left to right and each occurrence of the character is replaced by
the empty string. -/
def replaceChar (old : Char) : PyStr → PyStr
  | [] => []
  | c :: cs => if c = old then replaceChar old cs else c :: replaceChar old cs

/-- Python `s.strip()`: remove leading and trailing whitespace. -/
def pyStrip (s : PyStr) : PyStr :=
  ((s.dropWhile pyIsSpace).reverse.dropWhile pyIsSpace).reverse

/-- `GMRepo._clean_str` from `gmrepo.py`:
`return s.replace("\r", "").replace("\n", "").strip()`.
The `lru_cache` decorator only memoizes this pure function and does not
change its value, so it is not part of the model. -/
def clean_str (s : PyStr) : PyStr :=
  pyStrip (replaceChar '\n' (replaceChar '\r' s))

/-- The spec's wording of the normalizer contract: remove every carriage
return and line feed (anywhere in the string), then strip leading and
trailing whitespace. -/
def normSpec (s : PyStr) : PyStr :=
  pyStrip (s.filter fun c => !(c == '\r') && !(c == '\n'))

/-- A string is normalized when it contains no carriage return, contains no
line feed, and carries no leading or trailing whitespace. -/
def isNormalized (s : PyStr) : Prop :=
  '\r' ∉ s ∧ '\n' ∉ s ∧ pyStrip s = s

instance (s : PyStr) : Decidable (isNormalized s) := by
  unfold isNormalized; infer_instance

/-- A JSON-decoded response document, as produced by `response.json()`:
nested dictionaries, lists, strings and scalars.  Numbers are modelled as
integers, which covers every number the client or the claims manipulate;
the sanitizer passes numbers through unchanged either way. -/
inductive Json where
  | null
  | bool (b : Bool)
  | num (n : Int)
  | str (s : PyStr)
  | arr (elems : List Json)
  | obj (members : List (PyStr × Json))

mutual

/-- `GMRepo._clean_dict` from `gmrepo.py`: dictionaries have their values
recursively cleaned (keys untouched), lists have their elements recursively
cleaned, strings go through `_clean_str`, everything else is returned as is. -/
def clean_dict : Json → Json
  | .obj members => .obj (cleanMembers members)
  | .arr elems => .arr (cleanElems elems)
  | .str s => .str (clean_str s)
  | .null => .null
  | .bool b => .bool b
  | .num n => .num n

/-- The dict comprehension `{k: self._clean_dict(v) for k, v in obj.items()}`. -/
def cleanMembers : List (PyStr × Json) → List (PyStr × Json)
  | [] => []
  | (k, v) :: rest => (k, clean_dict v) :: cleanMembers rest

/-- The list comprehension `[self._clean_dict(v) for v in obj]`. -/
def cleanElems : List Json → List Json
  | [] => []
  | v :: rest => clean_dict v :: cleanElems rest

end

mutual

/-- The Response Sanitizer as worded by the spec: same shape, every mapping
value and sequence element recursively sanitized, every string passed through
the normalizer (`normSpec`), every other scalar unchanged. -/
def specSanitize : Json → Json
  | .null => .null
  | .bool b => .bool b
  | .num n => .num n
  | .str s => .str (normSpec s)
  | .arr elems => .arr (specSanitizeElems elems)
  | .obj members => .obj (specSanitizeMembers members)

/-- Elementwise `specSanitize` on a sequence. -/
def specSanitizeElems : List Json → List Json
  | [] => []
  | v :: rest => specSanitize v :: specSanitizeElems rest

/-- Valuewise `specSanitize` on a mapping's members. -/
def specSanitizeMembers : List (PyStr × Json) → List (PyStr × Json)
  | [] => []
  | (k, v) :: rest => (k, specSanitize v) :: specSanitizeMembers rest

end

mutual

/-- Every mapping key occurring anywhere inside a document, in traversal
order. -/
def allKeys : Json → List PyStr
  | .obj members => memberKeys members
  | .arr elems => elemKeys elems
  | .null => []
  | .bool _ => []
  | .num _ => []
  | .str _ => []

/-- Keys of a member list, including keys nested inside the values. -/
def memberKeys : List (PyStr × Json) → List PyStr
  | [] => []
  | (k, v) :: rest => k :: (allKeys v ++ memberKeys rest)

/-- Keys nested anywhere inside a list of elements. -/
def elemKeys : List Json → List PyStr
  | [] => []
  | v :: rest => allKeys v ++ elemKeys rest

end

mutual

/-- Every string occurring in value position inside a document: string
leaves, sequence elements and mapping values, recursively.  Mapping keys are
not value positions. -/
def valueStrings : Json → List PyStr
  | .str s => [s]
  | .arr elems => elemStrings elems
  | .obj members => memberStrings members
  | .null => []
  | .bool _ => []
  | .num _ => []

/-- Value-position strings inside a list of elements. -/
def elemStrings : List Json → List PyStr
  | [] => []
  | v :: rest => valueStrings v ++ elemStrings rest

/-- Value-position strings inside a member list (keys excluded). -/
def memberStrings : List (PyStr × Json) → List PyStr
  | [] => []
  | (_, v) :: rest => valueStrings v ++ memberStrings rest

end

/-- The errors the client can surface.  `transportError`, `httpStatusError`
and `decodeError` arise inside `session.post` / `raise_for_status` /
`response.json()`; `indexError`, `typeError`, `valueError` are the Python
exceptions raised by `.iloc[0, 0]` on an empty frame, `range()` on a
non-integer bound, and `pd.DataFrame` on a non-tabular argument. -/
inductive PyErr where
  | transportError
  | httpStatusError
  | decodeError
  | indexError
  | typeError
  | valueError
deriving DecidableEq

/-- The remote service as seen through one HTTP POST: an endpoint and a JSON
payload yield either the decoded response body, or the error raised by the
transport (`TransportError`), by `raise_for_status` on a non-2xx status
(`HTTPStatusError`), or by `response.json()` on a malformed body
(`DecodeError`). -/
def Service := PyStr → List (PyStr × Json) → Except PyErr Json

/-- Endpoint path constants from the `PhenotypeEndpoint` enum in
`gmrepo.py`, for the two endpoints the pagination pipeline uses. -/
def COUNT_RUNS : PyStr := "countAssociatedRunsByPhenotypeMeshID".data

/-- `PhenotypeEndpoint.ASSOCIATED_RUNS` from `gmrepo.py`. -/
def ASSOCIATED_RUNS : PyStr := "getAssociatedRunsByPhenotypeMeshIDLimit".data

/-- `GMRepo._request` from `gmrepo.py`: POST the payload, raise on failure,
decode the body, and return it passed through `_clean_dict`.  There is no
handler: an error from the service propagates as is. -/
def request (svc : Service) (endpoint : PyStr) (data : List (PyStr × Json)) :
    Except PyErr Json :=
  match svc endpoint data with
  | .error e => .error e
  | .ok body => .ok (clean_dict body)

/-- One row of a pandas data frame: the record's fields in column order. -/
abbrev Row := List (PyStr × Json)

/-- A pandas data frame built from an array-of-records response: its ordered
rows. -/
abbrev Table := List Row

/-- A response element as a data-frame row: a JSON object contributes its
members; a bare scalar becomes a single positional column. -/
def rowOf : Json → Row
  | .obj members => members
  | v => [([], v)]

/-- `pd.DataFrame(response)` on the response shapes the spec assigns to
tabular endpoints (an array of records, §3 "Tabular Result"); any other
shape raises (`ValueError`), which no claim exercises. -/
def toTable : Json → Except PyErr Table
  | .arr elems => .ok (elems.map rowOf)
  | _ => .error .valueError

/-- `.iloc[0, 0]`: the value in the first row and first column; raises
`IndexError` when the frame has no rows or no columns. -/
def iloc00 : Table → Except PyErr Json
  | [] => .error .indexError
  | row :: _ =>
    match row with
    | [] => .error .indexError
    | (_, v) :: _ => .ok v

/-- The payload `{"mesh_id": mesh_id}` built by `count_associated_runs`. -/
def count_payload (mesh_id : PyStr) : List (PyStr × Json) :=
  [("mesh_id".data, .str mesh_id)]

/-- `GMRepo.count_associated_runs` from `gmrepo.py`:
`pd.DataFrame(self._request(COUNT_RUNS, data)).iloc[0, 0]`. -/
def count_associated_runs (svc : Service) (mesh_id : PyStr) : Except PyErr Json :=
  match request svc COUNT_RUNS (count_payload mesh_id) with
  | .error e => .error e
  | .ok resp =>
    match toTable resp with
    | .error e => .error e
    | .ok t => iloc00 t

/-- The payload `{"mesh_id": mesh_id, "skip": skip, "limit": limit}` built by
`get_associated_runs`. -/
def runs_payload (mesh_id : PyStr) (skip limit : Int) : List (PyStr × Json) :=
  [("mesh_id".data, .str mesh_id), ("skip".data, .num skip), ("limit".data, .num limit)]

/-- `GMRepo.get_associated_runs` from `gmrepo.py`:
`pd.DataFrame(self._request(ASSOCIATED_RUNS, data))`. -/
def get_associated_runs (svc : Service) (mesh_id : PyStr) (skip limit : Int) :
    Except PyErr Table :=
  match request svc ASSOCIATED_RUNS (runs_payload mesh_id skip limit) with
  | .error e => .error e
  | .ok resp => toTable resp

/-- Recursion for `pyRange`: emit `start` while `start < stop`, advancing by
`step`.  The fuel bounds the recursion; `(stop - start).toNat` steps suffice
whenever `step ≥ 1`. -/
def pyRangeAux (fuel : Nat) (start stop step : Int) : List Int :=
  match fuel with
  | 0 => []
  | fuel + 1 => if start < stop then start :: pyRangeAux fuel (start + step) stop step else []

/-- Python `range(start, stop, step)` for a positive step — the only case the
client reaches, since `batch_size` defaults to 100 and every claim keeps it
positive. -/
def pyRange (start stop step : Int) : List Int :=
  if 0 < step then pyRangeAux (stop - start).toNat start stop step else []

/-- One HTTP request issued by the client: the endpoint and the JSON payload
posted to it. -/
structure Call where
  endpoint : PyStr
  payload : List (PyStr × Json)

/-- Python `range(0, total_runs, batch_size)` accepts only an integer bound;
anything else raises `TypeError`. -/
def asInt : Json → Except PyErr Int
  | .num n => .ok n
  | _ => .error .typeError

/-- The page loop of `get_all_associated_runs`, over the list of `skip`
offsets.  Each iteration does `batch = skip + batch_size` and then
`self.get_associated_runs(mesh_id, skip, batch)` — the limit the source
passes is `skip + batch_size`, exactly as written.  Returns the calls issued
in order together with the accumulated pages; the loop stops at the first
failing request, which propagates. -/
def fetchPages (svc : Service) (mesh_id : PyStr) (batch_size : Int) :
    List Int → List Call × Except PyErr (List Table)
  | [] => ([], .ok [])
  | skip :: rest =>
    let limit := skip + batch_size
    let call : Call := ⟨ASSOCIATED_RUNS, runs_payload mesh_id skip limit⟩
    match get_associated_runs svc mesh_id skip limit with
    | .error e => ([call], .error e)
    | .ok page =>
      match fetchPages svc mesh_id batch_size rest with
      | (calls, .error e) => (call :: calls, .error e)
      | (calls, .ok pages) => (call :: calls, .ok (page :: pages))

/-- `GMRepo.get_all_associated_runs` from `gmrepo.py`: count once, then loop
`for skip in range(0, total_runs, batch_size)` fetching each page, and return
`pd.concat(all_runs) if all_runs else pd.DataFrame()`.  The result records
the calls issued (the count request followed by the page requests) and the
returned frame or the propagated error. -/
def get_all_associated_runs (svc : Service) (mesh_id : PyStr) (batch_size : Int) :
    List Call × Except PyErr Table :=
  let countCall : Call := ⟨COUNT_RUNS, count_payload mesh_id⟩
  match count_associated_runs svc mesh_id with
  | .error e => ([countCall], .error e)
  | .ok totalJson =>
    match asInt totalJson with
    | .error e => ([countCall], .error e)
    | .ok total =>
      match fetchPages svc mesh_id batch_size (pyRange 0 total batch_size) with
      | (calls, .error e) => (countCall :: calls, .error e)
      | (calls, .ok pages) =>
        (countCall :: calls, .ok (if pages.isEmpty then [] else pages.flatten))

/-- The page requests among a list of issued calls: those posted to the
`ASSOCIATED_RUNS` endpoint. -/
def pageCalls (calls : List Call) : List Call :=
  calls.filter fun c => c.endpoint == ASSOCIATED_RUNS

/-- `GMRepo.calculate_prevalence` from `gmrepo.py`:
`species_data["samples"] / stats_data.stats["nr_valid_samples"] * 100` — the
`samples` column divided elementwise by the scalar `nr_valid_samples`, times
100.  A pure function of its arguments: it takes no `Service` and issues no
request.  Exact rational arithmetic models the computation (every value the
claims use is exactly representable). -/
def calculate_prevalence (samples : List ℚ) (nr_valid_samples : ℚ) : List ℚ :=
  samples.map fun s => s / nr_valid_samples * 100

/-- Lookup of a payload field by name, as the remote side would read the
posted JSON object. -/
def lookupJ (p : List (PyStr × Json)) (k : PyStr) : Option Json :=
  (p.find? (fun kv => kv.1 == k)).map (·.2)

/-- An integer payload field, when present. -/
def intField (p : List (PyStr × Json)) (k : PyStr) : Option Int :=
  match lookupJ p k with
  | some (.num n) => some n
  | _ => none

/-- The MeSH identifier the spec's pagination scenario uses. -/
def meshD : PyStr := "D006262".data

/-- Mock service for the spec's pagination scenario: the count endpoint
reports 250 runs, and the page endpoint honours `skip`/`limit` over a table
of 250 runs, returning at most `limit` records starting at offset `skip`. -/
def mockSvc250 : Service := fun e p =>
  if e = COUNT_RUNS then .ok (.arr [.obj [("count_of_runs".data, .num 250)]])
  else if e = ASSOCIATED_RUNS then
    match intField p "skip".data, intField p "limit".data with
    | some s, some l =>
      .ok (.arr ((pyRange s (min (s + l) 250) 1).map fun i => .obj [("run_id".data, .num i)]))
    | _, _ => .error .httpStatusError
  else .error .httpStatusError

/-- A service whose response document carries a raw key: a mapping key
containing a carriage return and leading whitespace. -/
def svcLeak : Service := fun _ _ => .ok (.obj [(" k\r".data, .num 1)])

/-- A service answering every request with a plain dirty string body. -/
def svcStr : Service := fun _ _ => .ok (.str "  a\r\nb ".data)

/-- A service for which every request fails with a non-2xx status. -/
def svcErr : Service := fun _ _ => .error .httpStatusError

/-- A service whose count endpoint reports zero runs. -/
def svcZero : Service := fun e _ =>
  if e = COUNT_RUNS then .ok (.arr [.obj [("count_of_runs".data, .num 0)]])
  else .error .httpStatusError

/-- A service whose count endpoint reports five runs. -/
def svcCount5 : Service := fun e _ =>
  if e = COUNT_RUNS then .ok (.arr [.obj [("count_of_runs".data, .num 5)]])
  else .error .httpStatusError

/-- A service whose count endpoint answers with an empty table. -/
def svcCountEmpty : Service := fun e _ =>
  if e = COUNT_RUNS then .ok (.arr [])
  else .error .httpStatusError


theorem replaceChar_eq_filter (old : Char) (s : PyStr) :
    replaceChar old s = s.filter (fun c => !(c == old)) := by
  induction s with
  | nil => rfl
  | cons c cs ih =>
    by_cases h : c = old <;> simp [replaceChar, h, ih]

theorem clean_str_eq_normSpec (s : PyStr) : clean_str s = normSpec s := by
  unfold clean_str normSpec
  rw [replaceChar_eq_filter, replaceChar_eq_filter, List.filter_filter]
  congr 1
  apply List.filter_congr
  intro c _
  exact Bool.and_comm _ _

theorem dropWhile_dropWhile (p : Char → Bool) (l : PyStr) :
    (l.dropWhile p).dropWhile p = l.dropWhile p := by
  induction l with
  | nil => rfl
  | cons a t ih =>
    by_cases h : p a <;> simp [List.dropWhile_cons, h, ih]

theorem dropWhile_head_false {p : Char → Bool} {a : Char} {t : PyStr}
    (h : (a :: t).dropWhile p = a :: t) : p a = false := by
  by_cases hp : p a
  · exfalso
    rw [List.dropWhile_cons, if_pos hp] at h
    have hle : (t.dropWhile p).length ≤ t.length := (List.dropWhile_sublist p).length_le
    rw [h] at hle
    simp at hle
  · simpa using hp

theorem pyStrip_front (l : PyStr) : (pyStrip l).dropWhile pyIsSpace = pyStrip l := by
  have hAfix : (l.dropWhile pyIsSpace).dropWhile pyIsSpace = l.dropWhile pyIsSpace :=
    dropWhile_dropWhile _ l
  unfold pyStrip
  cases hBr : ((l.dropWhile pyIsSpace).reverse.dropWhile pyIsSpace).reverse with
  | nil => simp
  | cons a t =>
    have hsplit : (l.dropWhile pyIsSpace).reverse.takeWhile pyIsSpace ++
        (l.dropWhile pyIsSpace).reverse.dropWhile pyIsSpace = (l.dropWhile pyIsSpace).reverse :=
      List.takeWhile_append_dropWhile pyIsSpace _
    have hA2 : ((l.dropWhile pyIsSpace).reverse.dropWhile pyIsSpace).reverse ++
        ((l.dropWhile pyIsSpace).reverse.takeWhile pyIsSpace).reverse = l.dropWhile pyIsSpace := by
      rw [← List.reverse_append, hsplit, List.reverse_reverse]
    rw [hBr] at hA2
    simp only [List.cons_append] at hA2
    rw [← hA2] at hAfix
    have hpa : pyIsSpace a = false := dropWhile_head_false hAfix
    simp [List.dropWhile_cons, hpa]

theorem pyStrip_idem (l : PyStr) : pyStrip (pyStrip l) = pyStrip l := by
  conv_lhs => rw [pyStrip]
  rw [pyStrip_front l]
  have hrev : (pyStrip l).reverse = (l.dropWhile pyIsSpace).reverse.dropWhile pyIsSpace := by
    simp [pyStrip]
  rw [hrev, dropWhile_dropWhile]
  simp [pyStrip]

theorem mem_of_mem_pyStrip {c : Char} {l : PyStr} (h : c ∈ pyStrip l) : c ∈ l := by
  unfold pyStrip at h
  rw [List.mem_reverse] at h
  have h2 := (List.dropWhile_sublist pyIsSpace).mem h
  rw [List.mem_reverse] at h2
  exact (List.dropWhile_sublist pyIsSpace).mem h2

theorem clean_str_no_cr (s : PyStr) : '\r' ∉ clean_str s := by
  rw [clean_str_eq_normSpec]
  intro h
  have h2 := mem_of_mem_pyStrip h
  rw [List.mem_filter] at h2
  simp at h2

theorem clean_str_no_lf (s : PyStr) : '\n' ∉ clean_str s := by
  rw [clean_str_eq_normSpec]
  intro h
  have h2 := mem_of_mem_pyStrip h
  rw [List.mem_filter] at h2
  simp at h2

theorem pyStrip_clean_str (s : PyStr) : pyStrip (clean_str s) = clean_str s := by
  rw [clean_str_eq_normSpec, normSpec, pyStrip_idem]

theorem clean_str_normalized (s : PyStr) : isNormalized (clean_str s) :=
  ⟨clean_str_no_cr s, clean_str_no_lf s, pyStrip_clean_str s⟩

theorem clean_str_of_normalized {s : PyStr} (h : isNormalized s) : clean_str s = s := by
  obtain ⟨hr, hn, hs⟩ := h
  rw [clean_str_eq_normSpec, normSpec]
  have hf : (s.filter fun c => !(c == '\r') && !(c == '\n')) = s := by
    apply List.filter_eq_self.mpr
    intro a ha
    have h1 : a ≠ '\r' := fun he => hr (he ▸ ha)
    have h2 : a ≠ '\n' := fun he => hn (he ▸ ha)
    simp [h1, h2]
  rw [hf, hs]

theorem clean_str_idem (s : PyStr) : clean_str (clean_str s) = clean_str s :=
  clean_str_of_normalized (clean_str_normalized s)

mutual

theorem clean_dict_eq_specSanitize : (v : Json) → clean_dict v = specSanitize v
  | .null => rfl
  | .bool _ => rfl
  | .num _ => rfl
  | .str s => congrArg Json.str (clean_str_eq_normSpec s)
  | .arr es => congrArg Json.arr (cleanElems_eq_specElems es)
  | .obj ms => congrArg Json.obj (cleanMembers_eq_specMembers ms)

theorem cleanElems_eq_specElems : (es : List Json) → cleanElems es = specSanitizeElems es
  | [] => rfl
  | v :: rest => by
    simp only [cleanElems, specSanitizeElems]
    rw [clean_dict_eq_specSanitize v, cleanElems_eq_specElems rest]

theorem cleanMembers_eq_specMembers :
    (ms : List (PyStr × Json)) → cleanMembers ms = specSanitizeMembers ms
  | [] => rfl
  | (k, v) :: rest => by
    simp only [cleanMembers, specSanitizeMembers]
    rw [clean_dict_eq_specSanitize v, cleanMembers_eq_specMembers rest]

end

mutual

theorem clean_dict_clean_dict : (v : Json) → clean_dict (clean_dict v) = clean_dict v
  | .null => rfl
  | .bool _ => rfl
  | .num _ => rfl
  | .str s => congrArg Json.str (clean_str_idem s)
  | .arr es => by
    simp only [clean_dict]
    exact congrArg Json.arr (cleanElems_cleanElems es)
  | .obj ms => by
    simp only [clean_dict]
    exact congrArg Json.obj (cleanMembers_cleanMembers ms)

theorem cleanElems_cleanElems : (es : List Json) → cleanElems (cleanElems es) = cleanElems es
  | [] => rfl
  | v :: rest => by
    simp only [cleanElems]
    rw [clean_dict_clean_dict v, cleanElems_cleanElems rest]

theorem cleanMembers_cleanMembers :
    (ms : List (PyStr × Json)) → cleanMembers (cleanMembers ms) = cleanMembers ms
  | [] => rfl
  | (k, v) :: rest => by
    simp only [cleanMembers]
    rw [clean_dict_clean_dict v, cleanMembers_cleanMembers rest]

end

mutual

theorem allKeys_clean_dict : (v : Json) → allKeys (clean_dict v) = allKeys v
  | .null => rfl
  | .bool _ => rfl
  | .num _ => rfl
  | .str _ => rfl
  | .arr es => by
    simp only [clean_dict, allKeys]
    exact elemKeys_cleanElems es
  | .obj ms => by
    simp only [clean_dict, allKeys]
    exact memberKeys_cleanMembers ms

theorem elemKeys_cleanElems : (es : List Json) → elemKeys (cleanElems es) = elemKeys es
  | [] => rfl
  | v :: rest => by
    simp only [cleanElems, elemKeys]
    rw [allKeys_clean_dict v, elemKeys_cleanElems rest]

theorem memberKeys_cleanMembers :
    (ms : List (PyStr × Json)) → memberKeys (cleanMembers ms) = memberKeys ms
  | [] => rfl
  | (k, v) :: rest => by
    simp only [cleanMembers, memberKeys]
    rw [allKeys_clean_dict v, memberKeys_cleanMembers rest]

end

mutual

theorem valueStrings_clean_dict_normalized :
    (v : Json) → ∀ s ∈ valueStrings (clean_dict v), isNormalized s
  | .null => by simp [clean_dict, valueStrings]
  | .bool _ => by simp [clean_dict, valueStrings]
  | .num _ => by simp [clean_dict, valueStrings]
  | .str s => by
    simp only [clean_dict, valueStrings, List.mem_singleton]
    rintro t rfl
    exact clean_str_normalized s
  | .arr es => by
    simp only [clean_dict, valueStrings]
    exact elemStrings_cleanElems_normalized es
  | .obj ms => by
    simp only [clean_dict, valueStrings]
    exact memberStrings_cleanMembers_normalized ms

theorem elemStrings_cleanElems_normalized :
    (es : List Json) → ∀ s ∈ elemStrings (cleanElems es), isNormalized s
  | [] => by simp [cleanElems, elemStrings]
  | v :: rest => by
    simp only [cleanElems, elemStrings, List.mem_append]
    rintro s (h | h)
    · exact valueStrings_clean_dict_normalized v s h
    · exact elemStrings_cleanElems_normalized rest s h

theorem memberStrings_cleanMembers_normalized :
    (ms : List (PyStr × Json)) → ∀ s ∈ memberStrings (cleanMembers ms), isNormalized s
  | [] => by simp [cleanMembers, memberStrings]
  | (k, v) :: rest => by
    simp only [cleanMembers, memberStrings, List.mem_append]
    rintro s (h | h)
    · exact valueStrings_clean_dict_normalized v s h
    · exact memberStrings_cleanMembers_normalized rest s h

end

theorem cleanMembers_eq_map :
    ∀ ms : List (PyStr × Json), cleanMembers ms = ms.map fun p => (p.1, clean_dict p.2)
  | [] => rfl
  | (k, v) :: rest => by simp [cleanMembers, cleanMembers_eq_map rest]

theorem request_ok_of_svc {svc : Service} {e : PyStr} {d : List (PyStr × Json)} {body : Json}
    (h : svc e d = .ok body) : request svc e d = .ok (clean_dict body) := by
  unfold request
  rw [h]

theorem request_error_of_svc {svc : Service} {e : PyStr} {d : List (PyStr × Json)} {err : PyErr}
    (h : svc e d = .error err) : request svc e d = .error err := by
  unfold request
  rw [h]

theorem request_ok_inv {svc : Service} {e : PyStr} {d : List (PyStr × Json)} {v : Json}
    (h : request svc e d = .ok v) : ∃ b, svc e d = .ok b := by
  unfold request at h
  cases hs : svc e d with
  | error er => rw [hs] at h; simp at h
  | ok b => exact ⟨b, rfl⟩

theorem count_ok_inv {svc : Service} {mesh : PyStr} {v : Json}
    (h : count_associated_runs svc mesh = .ok v) :
    ∃ b, svc COUNT_RUNS (count_payload mesh) = .ok b := by
  unfold count_associated_runs at h
  cases hr : request svc COUNT_RUNS (count_payload mesh) with
  | error er => rw [hr] at h; simp at h
  | ok resp => exact request_ok_inv hr

theorem count_error_of_svc {svc : Service} {mesh : PyStr} {err : PyErr}
    (h : svc COUNT_RUNS (count_payload mesh) = .error err) :
    count_associated_runs svc mesh = .error err := by
  unfold count_associated_runs
  rw [request_error_of_svc h]

theorem get_associated_runs_ok_inv {svc : Service} {mesh : PyStr} {skip limit : Int} {t : Table}
    (h : get_associated_runs svc mesh skip limit = .ok t) :
    ∃ b, svc ASSOCIATED_RUNS (runs_payload mesh skip limit) = .ok b := by
  unfold get_associated_runs at h
  cases hr : request svc ASSOCIATED_RUNS (runs_payload mesh skip limit) with
  | error er => rw [hr] at h; simp at h
  | ok resp => exact request_ok_inv hr

theorem get_associated_runs_error_of_svc {svc : Service} {mesh : PyStr} {skip limit : Int}
    {err : PyErr} (h : svc ASSOCIATED_RUNS (runs_payload mesh skip limit) = .error err) :
    get_associated_runs svc mesh skip limit = .error err := by
  unfold get_associated_runs
  rw [request_error_of_svc h]

theorem fetchPages_ok_inv (svc : Service) (mesh : PyStr) (bs : Int) :
    ∀ (skips : List Int) (calls : List Call) (pages : List Table),
      fetchPages svc mesh bs skips = (calls, .ok pages) →
      ∀ c ∈ calls, ∃ b, svc c.endpoint c.payload = .ok b := by
  intro skips
  induction skips with
  | nil =>
    intro calls pages h c hc
    simp only [fetchPages, Prod.mk.injEq] at h
    rw [← h.1] at hc
    simp at hc
  | cons skip rest ih =>
    intro calls pages h c hc
    rw [fetchPages] at h
    cases hg : get_associated_runs svc mesh skip (skip + bs) with
    | error e =>
      simp only [hg] at h
      simp at h
    | ok page =>
      simp only [hg] at h
      cases hf : fetchPages svc mesh bs rest with
      | mk calls2 res2 =>
        simp only [hf] at h
        cases res2 with
        | error e => simp at h
        | ok pages2 =>
          simp only [Prod.mk.injEq] at h
          rw [← h.1] at hc
          rcases List.mem_cons.mp hc with rfl | hc2
          · exact get_associated_runs_ok_inv hg
          · exact ih calls2 pages2 hf c hc2

theorem fetchPages_error_head {svc : Service} {mesh : PyStr} {bs skip : Int} {rest : List Int}
    {err : PyErr} (h : get_associated_runs svc mesh skip (skip + bs) = .error err) :
    fetchPages svc mesh bs (skip :: rest) =
      ([⟨ASSOCIATED_RUNS, runs_payload mesh skip (skip + bs)⟩], .error err) := by
  rw [fetchPages, h]

theorem get_all_error_of_count {svc : Service} {mesh : PyStr} {bs : Int} {err : PyErr}
    (h : count_associated_runs svc mesh = .error err) :
    get_all_associated_runs svc mesh bs = ([⟨COUNT_RUNS, count_payload mesh⟩], .error err) := by
  unfold get_all_associated_runs
  rw [h]

theorem get_all_error_of_pages {svc : Service} {mesh : PyStr} {bs total : Int}
    {calls : List Call} {e : PyErr}
    (hc : count_associated_runs svc mesh = .ok (.num total))
    (hf : fetchPages svc mesh bs (pyRange 0 total bs) = (calls, .error e)) :
    get_all_associated_runs svc mesh bs =
      (⟨COUNT_RUNS, count_payload mesh⟩ :: calls, .error e) := by
  unfold get_all_associated_runs
  rw [hc]
  simp only [asInt]
  rw [hf]

theorem get_all_ok_inv {svc : Service} {mesh : PyStr} {bs : Int} {t : Table}
    (h : (get_all_associated_runs svc mesh bs).2 = .ok t) :
    ∀ c ∈ (get_all_associated_runs svc mesh bs).1, ∃ b, svc c.endpoint c.payload = .ok b := by
  intro c hc
  unfold get_all_associated_runs at h hc
  cases hcount : count_associated_runs svc mesh with
  | error e =>
    simp only [hcount] at h
    simp at h
  | ok totalJson =>
    simp only [hcount] at h hc
    cases hint : asInt totalJson with
    | error e =>
      simp only [hint] at h
      simp at h
    | ok total =>
      simp only [hint] at h hc
      cases hf : fetchPages svc mesh bs (pyRange 0 total bs) with
      | mk calls2 res2 =>
        simp only [hf] at h hc
        cases res2 with
        | error e => simp at h
        | ok pages =>
          simp only [List.mem_cons] at hc
          rcases hc with rfl | hc2
          · exact count_ok_inv hcount
          · exact fetchPages_ok_inv svc mesh bs _ calls2 pages hf c hc2

theorem get_all_of_zero {svc : Service} {mesh : PyStr} (bs : Int)
    (h : count_associated_runs svc mesh = .ok (.num 0)) :
    get_all_associated_runs svc mesh bs = ([⟨COUNT_RUNS, count_payload mesh⟩], .ok []) := by
  unfold get_all_associated_runs
  rw [h]
  have hr : pyRange 0 0 bs = [] := by
    unfold pyRange pyRangeAux
    norm_num
  simp [asInt, hr, fetchPages]

theorem count_of_arr {svc : Service} {mesh : PyStr} {rows : List Json}
    (h : svc COUNT_RUNS (count_payload mesh) = .ok (.arr rows)) :
    count_associated_runs svc mesh = iloc00 ((cleanElems rows).map rowOf) := by
  unfold count_associated_runs
  rw [request_ok_of_svc h]
  simp [clean_dict, toTable]

set_option maxRecDepth 10000 in
/-- Claim C1: the spec's pagination scenario — count 250, batch_size 100 —
is supposed to issue three page requests with `limit = 100` each and return
250 rows.  The code computes `batch = skip + batch_size` and passes `batch`
as the limit, so the three page requests carry skips 0, 100, 200 but limits
100, 200, 300, and the concatenated frame holds 300 rows (with overlaps),
not 250.  The claim matches the docstring's intent (`batch_size: Number of
records to retrieve per request`); the code contradicts it. -/
theorem claim1_pagination_limit_bug :
    ((pageCalls (get_all_associated_runs mockSvc250 meshD 100).1).map fun c =>
      (intField c.payload "skip".data, intField c.payload "limit".data)) =
      [(some 0, some 100), (some 100, some 200), (some 200, some 300)] ∧
    ((get_all_associated_runs mockSvc250 meshD 100).2.map List.length) = .ok 300 :=
  ⟨by decide, rfl⟩

/-- Claim C2: `calculate_prevalence` is a pure per-row computation: row `i`
of the result is `samples[i] / nr_valid_samples * 100`, and on samples
`[10, 20]` with 100 valid samples it yields `[10.0, 20.0]`. -/
theorem claim2_calculate_prevalence :
    (∀ (samples : List ℚ) (nr : ℚ) (i : ℕ),
      (calculate_prevalence samples nr)[i]? = (samples[i]?).map fun s => s / nr * 100) ∧
    calculate_prevalence [10, 20] 100 = [10, 20] := by
  constructor
  · intro samples nr i
    simp [calculate_prevalence]
  · norm_num [calculate_prevalence]

/-- Claim C3 counterexample: `_clean_dict` leaves mapping keys untouched, so
a key holding a carriage return and leading whitespace reaches the
operation-method layer verbatim through `_request` — refuting the claim that
no string with a carriage return or untrimmed whitespace can reach it. -/
theorem claim3_counterexample_raw_key_reaches_caller :
    request svcLeak COUNT_RUNS [] = .ok (.obj [(" k\r".data, .num 1)]) ∧
    '\r' ∈ " k\r".data ∧ pyStrip " k\r".data ≠ " k\r".data :=
  ⟨rfl, by decide, by decide⟩

/-- Claim C3 (amended): every string in value position — string leaves,
sequence elements and mapping values — of a response document returned by
`_request` is normalized: no carriage return, no line feed, no leading or
trailing whitespace.  Mapping keys are excluded: they pass through
verbatim. -/
theorem claim3_amended_value_strings_sanitized :
    ∀ (svc : Service) (e : PyStr) (d : List (PyStr × Json)) (body : Json),
      svc e d = .ok body →
      request svc e d = .ok (clean_dict body) ∧
      ∀ s ∈ valueStrings (clean_dict body), isNormalized s :=
  fun _ _ _ body h =>
    ⟨request_ok_of_svc h, valueStrings_clean_dict_normalized body⟩

/-- Witness for the amended C3 at a concrete service answering with a dirty
string body. -/
theorem claim3_amended_witness :
    request svcStr COUNT_RUNS [] = .ok (clean_dict (.str "  a\r\nb ".data)) ∧
    ∀ s ∈ valueStrings (clean_dict (.str "  a\r\nb ".data)), isNormalized s :=
  claim3_amended_value_strings_sanitized svcStr COUNT_RUNS [] (.str "  a\r\nb ".data) rfl

/-- Claim C4: the normalizer removes every carriage return and line feed
anywhere in the string and then strips leading/trailing whitespace; in
particular `"a\r\nb \n"` normalizes to `"ab"`. -/
theorem claim4_clean_str_contract :
    (∀ s : PyStr, clean_str s = pyStrip (s.filter fun c => !(c == '\r') && !(c == '\n'))) ∧
    clean_str "a\r\nb \n".data = "ab".data :=
  ⟨clean_str_eq_normSpec, by decide⟩

/-- Claim C5: the response sanitizer returns a value of the same shape with
mapping values and sequence elements recursively sanitized, strings
normalized, and non-string scalars unchanged — it coincides with the spec's
recursive sanitizer everywhere — and sanitizing
`{"x": ["a\r\n", 3, null]}` yields `{"x": ["a", 3, null]}`. -/
theorem claim5_clean_dict_contract :
    (∀ v : Json, clean_dict v = specSanitize v) ∧
    clean_dict (.obj [("x".data, .arr [.str "a\r\n".data, .num 3, .null])]) =
      .obj [("x".data, .arr [.str "a".data, .num 3, .null])] :=
  ⟨clean_dict_eq_specSanitize, rfl⟩

/-- Claim C6: sanitizing twice equals sanitizing once on every finite JSON
value. -/
theorem claim6_sanitize_idempotent :
    ∀ v : Json, clean_dict (clean_dict v) = clean_dict v :=
  clean_dict_clean_dict

/-- Claim C7: failures propagate unchanged and produce no partial result.
(1) An error response makes `_request` fail with that same error — every
operation method calls `_request` with no handler, so the error reaches the
caller unchanged.  (2) A failing count request makes `get_all_associated_runs`
return that error after that single request.  (3) A failing page request
stops the page loop at once: the failing request is issued exactly once, no
further page is fetched, and the error is returned unchanged.  (4) If the
paginated fetch returns a table, every request it issued was answered
successfully — a failure on any page yields no partial table. -/
theorem claim7_error_propagation :
    (∀ (svc : Service) (e : PyStr) (d : List (PyStr × Json)) (err : PyErr),
      svc e d = .error err → request svc e d = .error err) ∧
    (∀ (svc : Service) (mesh : PyStr) (bs : Int) (err : PyErr),
      svc COUNT_RUNS (count_payload mesh) = .error err →
      get_all_associated_runs svc mesh bs = ([⟨COUNT_RUNS, count_payload mesh⟩], .error err)) ∧
    (∀ (svc : Service) (mesh : PyStr) (bs skip : Int) (rest : List Int) (err : PyErr),
      svc ASSOCIATED_RUNS (runs_payload mesh skip (skip + bs)) = .error err →
      fetchPages svc mesh bs (skip :: rest) =
        ([⟨ASSOCIATED_RUNS, runs_payload mesh skip (skip + bs)⟩], .error err)) ∧
    (∀ (svc : Service) (mesh : PyStr) (bs : Int) (t : Table),
      (get_all_associated_runs svc mesh bs).2 = .ok t →
      ∀ c ∈ (get_all_associated_runs svc mesh bs).1, ∃ b, svc c.endpoint c.payload = .ok b) := by
  refine ⟨?_, ?_, ?_, ?_⟩
  · intro svc e d err h
    exact request_error_of_svc h
  · intro svc mesh bs err h
    exact get_all_error_of_count (count_error_of_svc h)
  · intro svc mesh bs skip rest err h
    exact fetchPages_error_head (get_associated_runs_error_of_svc h)
  · intro svc mesh bs t h
    exact get_all_ok_inv h

/-- Witness for C7 at a concrete always-failing service. -/
theorem claim7_witness :
    request svcErr COUNT_RUNS [] = .error .httpStatusError ∧
    get_all_associated_runs svcErr meshD 100 =
      ([⟨COUNT_RUNS, count_payload meshD⟩], .error .httpStatusError) :=
  ⟨claim7_error_propagation.1 svcErr COUNT_RUNS [] .httpStatusError rfl,
   claim7_error_propagation.2.1 svcErr meshD 100 .httpStatusError rfl⟩

/-- Claim C8: when the count operation reports 0 runs,
`get_all_associated_runs` issues no page request — the only call made is the
count request — and returns an empty table. -/
theorem claim8_zero_total_no_pages :
    ∀ (svc : Service) (mesh : PyStr) (bs : Int),
      count_associated_runs svc mesh = .ok (.num 0) →
      get_all_associated_runs svc mesh bs = ([⟨COUNT_RUNS, count_payload mesh⟩], .ok []) ∧
      pageCalls (get_all_associated_runs svc mesh bs).1 = [] := by
  intro svc mesh bs h
  have h1 := get_all_of_zero bs h
  refine ⟨h1, ?_⟩
  rw [h1]
  rfl

/-- Witness for C8 at a concrete service reporting zero runs. -/
theorem claim8_witness :
    get_all_associated_runs svcZero meshD 100 = ([⟨COUNT_RUNS, count_payload meshD⟩], .ok []) ∧
    pageCalls (get_all_associated_runs svcZero meshD 100).1 = [] :=
  claim8_zero_total_no_pages svcZero meshD 100 rfl

/-- Claim C9: `count_associated_runs` returns the value in the first row and
first column of the tabular response, and raises `IndexError` — rather than
returning 0 or any sentinel — when the response table is empty. -/
theorem claim9_count_first_cell :
    ∀ (svc : Service) (mesh : PyStr) (rows : List Json),
      svc COUNT_RUNS (count_payload mesh) = .ok (.arr rows) →
      (rows = [] → count_associated_runs svc mesh = .error .indexError) ∧
      (∀ (k : PyStr) (v : Json) (kvs : List (PyStr × Json)) (rest : List Json),
        rows = .obj ((k, v) :: kvs) :: rest →
        count_associated_runs svc mesh = .ok (clean_dict v)) := by
  intro svc mesh rows h
  have hbase := count_of_arr h
  constructor
  · rintro rfl
    simpa [cleanElems, iloc00] using hbase
  · rintro k v kvs rest rfl
    simpa [cleanElems, clean_dict, cleanMembers, rowOf, iloc00] using hbase

/-- Witness for C9: an empty count table raises `IndexError`; a one-row
count table yields its first cell. -/
theorem claim9_witness :
    count_associated_runs svcCountEmpty meshD = .error .indexError ∧
    count_associated_runs svcCount5 meshD = .ok (.num 5) :=
  ⟨(claim9_count_first_cell svcCountEmpty meshD [] rfl).1 rfl,
   (claim9_count_first_cell svcCount5 meshD [.obj [("count_of_runs".data, .num 5)]] rfl).2
     "count_of_runs".data (.num 5) [] [] rfl⟩

/-- Claim C10: the sanitizer returns, for every mapping anywhere inside the
input, a mapping with exactly the original keys, unmodified — only values
are cleaned — and a key carrying carriage returns, line feeds and
surrounding whitespace is delivered verbatim. -/
theorem claim10_keys_unmodified :
    (∀ v : Json, allKeys (clean_dict v) = allKeys v) ∧
    (∀ ms : List (PyStr × Json),
      clean_dict (.obj ms) = .obj (ms.map fun p => (p.1, clean_dict p.2))) ∧
    clean_dict (.obj [(" K\r\n ".data, .num 1)]) = .obj [(" K\r\n ".data, .num 1)] := by
  refine ⟨allKeys_clean_dict, ?_, rfl⟩
  intro ms
  simp [clean_dict, cleanMembers_eq_map]

end GMRepo
